import Mathlib

/-
Shallow embedding of fuel-plugins
`fuel_plugin_builder/actions/build.py` (BaseBuildPlugin, BuildPluginV1,
BuildPluginV2, BuildPluginV3, make_builder).

Modelling conventions:
* Paths are plain strings; `join_path a b` is `a ++ "/" ++ b`, and
  `os.path.abspath` is the identity (all paths in the claims are already
  rooted at the plugin path).
* The mutable world is a `World`: a small filesystem (files with textual
  contents plus a set of directories), a trace of executed external
  commands, a log of created tar.gz archives and a log of rendered
  templates.  External commands do not themselves mutate the filesystem in
  the model; their success or failure is given by the environment.
* A Python method that can raise becomes `World → World × Option Err`:
  the world keeps the side effects performed up to the point of the raise.
* A glob pattern with a single `*` (the only shape this program uses) is
  embedded as its prefix/suffix pair (`Mask`).
-/

namespace Fpb

/-- `os.path.join` for the two-argument uses in build.py. -/
def join_path (a b : String) : String := a ++ "/" ++ b

/-- If `pre` is an initial segment of `s`, return the remainder. -/
def dropPre? : List Char → List Char → Option (List Char)
  | [], s => some s
  | _ :: _, [] => none
  | p :: ps, c :: cs => if p = c then dropPre? ps cs else none

/-- Boolean "string `s` begins with `pre`". -/
def strStarts (pre s : String) : Bool := (dropPre? pre.toList s.toList).isSome

/-- A glob pattern of the shape `pre*suf` (the only shape build.py uses),
embedded as the pair of its literal prefix and suffix. -/
structure Mask where
  pre : String
  suf : String
  deriving DecidableEq

/-- `fnmatch`-style matching for a single-`*` glob: the path starts with
`m.pre` and the remainder ends with `m.suf`. -/
def maskMatches (m : Mask) (path : String) : Bool :=
  match dropPre? m.pre.toList path.toList with
  | none => false
  | some rest => (dropPre? m.suf.toList.reverse rest.reverse).isSome

/-- Last path component. -/
def baseName (p : String) : String :=
  String.mk ((p.toList.reverse.takeWhile (fun c => c ≠ '/')).reverse)

/-- Errors surfaced by the pipeline (build.py raises; callers observe). -/
inductive Err where
  /-- `KeyError` from a `meta[...]` dictionary access. -/
  | keyError (field : String)
  /-- `errors.FuelCannotFindCommandError` with its message. -/
  | cannotFindCommand (msg : String)
  /-- Structural validation failure (opaque, from the external validator). -/
  | validationError
  /-- A shelled-out external command exited non-zero. -/
  | commandFailed (cmd : String)
  /-- `metadata.yaml` does not exist. -/
  | metadataMissing
  /-- `metadata.yaml` exists but cannot be parsed. -/
  | metadataParseError
  /-- The version-to-builder mapping lookup failed. -/
  | versionLookupError
  deriving DecidableEq

/-- One entry of `metadata.yaml`'s `releases` list. -/
structure Release where
  os : String
  repository_path : String
  deriving DecidableEq

/-- The parsed `metadata.yaml` dictionary.  Every field build.py reads is
optional here: `meta['k']` raises `KeyError` when absent, `meta.get(...)`
falls back to a default. -/
structure MetaDict where
  name : Option String := none
  version : Option String := none
  title : Option String := none
  description : Option String := none
  releases : Option (List Release) := none
  licenses : Option (List String) := none
  homepage : Option String := none
  authors : Option (List String) := none
  deriving DecidableEq

/-- A value placed into a template-data dictionary. -/
inductive TVal where
  /-- A string value. -/
  | s (v : String)
  /-- A possibly-absent string (`meta.get('homepage')` may give `None`). -/
  | os (v : Option String)
  /-- A numeric value (the current year). -/
  | n (v : Nat)
  deriving DecidableEq

/-- Template data: an insertion-ordered string-keyed dictionary. -/
abbrev TData : Type := List (String × TVal)

/-- The filesystem state: textual files (path, contents) and directories. -/
structure FS where
  files : List (String × String) := []
  dirs : List String := []
  deriving DecidableEq

/-- An external command invocation, as recorded in the trace. -/
inductive ExtCmd where
  /-- `utils.exec_cmd cmd`. -/
  | exec (cmd : String)
  /-- `utils.exec_piped_cmds cmds cwd=cwd`. -/
  | piped (cmds : List String) (cwd : String)
  deriving DecidableEq

/-- A `utils.make_tar_gz(dir_path, tar_path, files_prefix)` call:
gzip-compressed tarball of `srcDir` written at `dest`, whose members live
under the internal root directory `rootName`. -/
structure TarGzEntry where
  srcDir : String
  dest : String
  rootName : String
  deriving DecidableEq

/-- A `utils.render_to_file(src, dst, data)` call. -/
structure RenderEntry where
  src : String
  dst : String
  data : TData
  deriving DecidableEq

/-- The mutable world threaded through the pipeline. -/
structure World where
  fs : FS := {}
  trace : List ExtCmd := []
  targz : List TarGzEntry := []
  renders : List RenderEntry := []
  deriving DecidableEq

/-- Decidable equality of `Except` results, for concrete evaluation. -/
instance instDecEqExcept {e a : Type} [DecidableEq e] [DecidableEq a] :
    DecidableEq (Except e a)
  | .ok x, .ok y =>
    if h : x = y then .isTrue (congrArg Except.ok h)
    else .isFalse (fun hc => h (Except.ok.inj hc))
  | .error x, .error y =>
    if h : x = y then .isTrue (congrArg Except.error h)
    else .isFalse (fun hc => h (Except.error.inj hc))
  | .ok _, .error _ => .isFalse (fun hc => Except.noConfusion hc)
  | .error _, .ok _ => .isFalse (fun hc => Except.noConfusion hc)

/-- The static host environment: which names resolve on PATH
(`utils.which`), which external commands succeed, what the structural
validator says per plugin path, the current year, and the
version-to-builder mapping lookup. -/
structure Env where
  which : String → Bool
  cmdOk : ExtCmd → Bool
  validatorOk : String → Bool
  year : Nat

/-- The store of parseable YAML files: for a path, `none` means the file
does not exist, `some none` means it exists but does not parse, and
`some (some m)` is its parse. -/
abbrev YamlStore : Type := List (String × Option MetaDict)

/-- Modelled from the spec: `utils.parse_yaml` is not under `src/`.  It
reads and parses a YAML file, failing when the file is missing or
malformed (spec §6: `metadata.yaml` required; §7: `MetadataError` for
malformed or missing metadata). -/
def parse_yaml (ys : YamlStore) (path : String) : Except Err MetaDict :=
  match ys.find? (fun e => e.1 == path) with
  | none => .error .metadataMissing
  | some (_, none) => .error .metadataParseError
  | some (_, some m) => .ok m

/-- Modelled from the spec: `utils.read_if_exist` is not under `src/`.
Spec §4.4/§6: the three V3 lifecycle scripts are "raw text read verbatim"
and "a missing script contributes an empty string, not an error". -/
def read_if_exist (fs : FS) (path : String) : String :=
  match fs.files.find? (fun e => e.1 == path) with
  | none => ""
  | some (_, content) => content

/-- Modelled from the spec: `utils.version_split_name_rpm` is not under
`src/`.  Spec §4.4: split a version string into a package-version
component and a release/iteration suffix at the final dash, e.g.
`"1.2-3"` ↦ `("1.2", "3")`; a version with no explicit release suffix
defaults the release to `"1"`. -/
def version_split_name_rpm (version : String) : String × String :=
  match breakAtLastDash version.toList with
  | none => (version, "1")
  | some (before, after) => (String.mk before, String.mk after)
where
  /-- Split a character list at its last `'-'`, dropping the dash. -/
  breakAtLastDash : List Char → Option (List Char × List Char)
    | [] => none
    | c :: rest =>
      match breakAtLastDash rest with
      | some (a, b) => some (c :: a, b)
      | none => if c = '-' then some ([], rest) else none

/-- `utils.remove` on a directory: delete the tree rooted at `d`. -/
def removeTreeF (d : String) (fs : FS) : FS :=
  { fs with
    files := fs.files.filter (fun f => !(f.1 == d || strStarts (d ++ "/") f.1))
    dirs := fs.dirs.filter (fun x => !(x == d || strStarts (d ++ "/") x)) }

/-- `utils.create_dir`: create the directory if it does not exist. -/
def createDirF (d : String) (fs : FS) : FS :=
  if fs.dirs.contains d then fs else { fs with dirs := fs.dirs ++ [d] }

/-- `utils.remove_by_mask`: delete every file matching the glob. -/
def removeByMaskF (m : Mask) (fs : FS) : FS :=
  { fs with files := fs.files.filter (fun f => !maskMatches m f.1) }

/-- Create (or overwrite) a file. -/
def addFileF (path content : String) (fs : FS) : FS :=
  { fs with files := fs.files.filter (fun f => !(f.1 == path)) ++ [(path, content)] }

/-- `utils.copy_files_in_dir mask dst`: copy every file matching the glob
into `dst`, keeping its base name. -/
def copyByMaskF (m : Mask) (dst : String) (fs : FS) : FS :=
  { fs with
    files := fs.files ++
      (fs.files.filter (fun f => maskMatches m f.1)).map
        (fun f => (join_path dst (baseName f.1), f.2)) }

/-- `utils.move_files_in_dir mask dst`: move every file matching the glob
into `dst`, keeping its base name. -/
def moveByMaskF (m : Mask) (dst : String) (fs : FS) : FS :=
  { fs with
    files := fs.files.map
      (fun f => if maskMatches m f.1 then (join_path dst (baseName f.1), f.2) else f) }

/-- Modelled from the spec: the `utils.copy_files_in_dir(plugin/*, src)`
staging call is an external helper; spec §4.4/§6 describe it as a
"recursive copy of everything under plugin root" into the build-local
source directory, "except build output already present". -/
def stageCopyF (pluginPath buildDir bsd : String) (fs : FS) : FS :=
  { fs with
    files := fs.files ++ fs.files.filterMap (fun f =>
      match dropPre? (pluginPath ++ "/").toList f.1.toList with
      | none => none
      | some rest =>
        if f.1 == buildDir || strStarts (buildDir ++ "/") f.1 then none
        else some (join_path bsd (String.mk rest), f.2)) }

/-- The three plugin format versions (builder classes). -/
inductive Variant where
  | v1
  | v2
  | v3
  deriving DecidableEq

/-- The fields BuildPluginV2.__init__ adds on top of the base class
(BuildPluginV3 inherits this __init__ unchanged). -/
structure V2Fields where
  plugin_version : String
  full_version : String
  rpm_path : String
  rpm_src_path : String
  full_name : String
  tar_path : String
  spec_src : String
  release_tmpl_src : String
  spec_dst : String
  rpm_packages_mask : Mask
  deriving DecidableEq

/-- Which class the builder object is an instance of, with the extra
fields its __init__ computed. -/
inductive VariantExt where
  | v1
  | v2 (f : V2Fields)
  | v3 (f : V2Fields)
  deriving DecidableEq

/-- A constructed builder object: the attributes set by
BaseBuildPlugin.__init__ plus the variant-specific extension. -/
structure Builder where
  plugin_path : String
  pre_build_hook_path : String
  meta : MetaDict
  build_dir : String
  build_src_dir : String
  checksums_path : String
  name : String
  ext : VariantExt
  deriving DecidableEq

/-- The builder's variant tag. -/
def Builder.variant (b : Builder) : Variant :=
  match b.ext with
  | .v1 => .v1
  | .v2 _ => .v2
  | .v3 _ => .v3

/-- Class attribute `requires`: V1 needs rpm/createrepo/dpkg-scanpackages,
V2 (and V3, by inheritance) additionally rpmbuild. -/
def requires (b : Builder) : List String :=
  match b.ext with
  | .v1 => ["rpm", "createrepo", "dpkg-scanpackages"]
  | .v2 _ => ["rpmbuild", "rpm", "createrepo", "dpkg-scanpackages"]
  | .v3 _ => ["rpmbuild", "rpm", "createrepo", "dpkg-scanpackages"]

/-- Property `result_package_mask`: `<plugin>/<name>-*.fp` for V1 and
`<plugin>/<name>-*.noarch.rpm` for V2/V3, as prefix/suffix masks. -/
def result_package_mask (b : Builder) : Mask :=
  match b.ext with
  | .v1 => { pre := join_path b.plugin_path (b.name ++ "-"), suf := ".fp" }
  | .v2 _ => { pre := join_path b.plugin_path (b.name ++ "-"), suf := ".noarch.rpm" }
  | .v3 _ => { pre := join_path b.plugin_path (b.name ++ "-"), suf := ".noarch.rpm" }

/-- The directory holding the fuel_plugin_builder package itself
(`os.path.dirname(__file__) + '/..'`), a fixed location in the model. -/
def fpb_dir : String := "/fpb"

/-- Class attribute `rpm_spec_src_path` (V3 overrides V2's value). -/
def rpm_spec_src_path : Variant → String
  | .v1 => ""
  | .v2 => "templates/v2/build/plugin_rpm.spec.mako"
  | .v3 => "templates/v3/build/plugin_rpm.spec.mako"

/-- Class attribute `release_tmpl_src_path` (V3 overrides V2's value). -/
def release_tmpl_src_path : Variant → String
  | .v1 => ""
  | .v2 => "templates/v2/build/Release.mako"
  | .v3 => "templates/v3/build/Release.mako"

/-- Turn a possibly-absent dictionary field into a `KeyError`. -/
def getKey (field : String) : Option α → Except Err α
  | none => .error (.keyError field)
  | some v => .ok v

/-- `__init__` of the selected builder class, given the parsed metadata:
BaseBuildPlugin.__init__ sets the shared paths and `name = meta['name']`;
BuildPluginV2.__init__ (inherited by V3) additionally splits
`meta['version']` and derives the rpm staging paths. -/
def builderInit (v : Variant) (plugin_path : String) (meta : MetaDict) :
    Except Err Builder := do
  let name ← getKey "name" meta.name
  let build_dir := join_path plugin_path ".build"
  let build_src_dir := join_path build_dir "src"
  let base : Builder :=
    { plugin_path := plugin_path
      pre_build_hook_path := join_path plugin_path "pre_build_hook"
      meta := meta
      build_dir := build_dir
      build_src_dir := build_src_dir
      checksums_path := join_path build_src_dir "checksums.sha1"
      name := name
      ext := .v1 }
  match v with
  | .v1 => pure base
  | .v2 | .v3 => do
    let version ← getKey "version" meta.version
    let (plugin_version, full_version) := version_split_name_rpm version
    let rpm_path := join_path (join_path plugin_path ".build") "rpm"
    let rpm_src_path := join_path rpm_path "SOURCES"
    let full_name := name ++ "-" ++ plugin_version
    let f : V2Fields :=
      { plugin_version := plugin_version
        full_version := full_version
        rpm_path := rpm_path
        rpm_src_path := rpm_src_path
        full_name := full_name
        tar_path := join_path rpm_src_path (full_name ++ ".fp")
        spec_src := join_path fpb_dir (rpm_spec_src_path v)
        release_tmpl_src := join_path fpb_dir (release_tmpl_src_path v)
        spec_dst := join_path rpm_path "plugin_rpm.spec"
        rpm_packages_mask :=
          { pre := join_path (join_path rpm_path "RPMS") "noarch" ++ "/", suf := ".rpm" } }
    match v with
    | .v3 => pure { base with ext := .v3 f }
    | _ => pure { base with ext := .v2 f }

/-- Modelled from the spec: `make_builder` looks the builder class up via
`version_mapping.get_version_mapping_from_plugin`, which is not under
`src/`.  Spec §3/§4.1: the metadata is loaded once per build, the declared
format version determines the variant (the lookup itself is the external
parameter `lookup`), and the builder is then constructed. -/
def make_builder (lookup : MetaDict → Except Err Variant) (ys : YamlStore)
    (plugin_path : String) : Except Err Builder := do
  let meta ← parse_yaml ys (join_path plugin_path "metadata.yaml")
  let v ← lookup meta
  builderInit v plugin_path meta

/-- The result of a possibly-raising statement: the world after its side
effects, and the exception if it raised. -/
abbrev StepResult : Type := World × Option Err

/-- Sequencing of statements under exceptions: run `f` only when the
previous statement did not raise. -/
def andThen (r : StepResult) (f : World → StepResult) : StepResult :=
  match r with
  | (w, none) => f w
  | (w, some e) => (w, some e)

/-- `utils.exec_cmd cmd`: record the invocation; a non-zero exit status
raises. -/
def exec_cmd (env : Env) (cmd : String) (w : World) : StepResult :=
  let w := { w with trace := w.trace ++ [ExtCmd.exec cmd] }
  if env.cmdOk (ExtCmd.exec cmd) then (w, none)
  else (w, some (Err.commandFailed cmd))

/-- `utils.exec_piped_cmds cmds cwd`: record the piped invocation; a
non-zero exit status raises. -/
def exec_piped_cmds (env : Env) (cmds : List String) (cwd : String) (w : World) :
    StepResult :=
  let w := { w with trace := w.trace ++ [ExtCmd.piped cmds cwd] }
  if env.cmdOk (ExtCmd.piped cmds cwd) then (w, none)
  else (w, some (Err.commandFailed (String.intercalate " | " cmds)))

/-- `utils.make_tar_gz src tar_path root`: record the archive and create
the tarball file. -/
def make_tar_gz (src tarPath root : String) (w : World) : World :=
  { w with
    fs := addFileF tarPath "" w.fs
    targz := w.targz ++ [{ srcDir := src, dest := tarPath, rootName := root }] }

/-- `utils.render_to_file src dst data`: record the render and create the
output file. -/
def render_to_file (src dst : String) (data : TData) (w : World) : World :=
  { w with
    fs := addFileF dst "" w.fs
    renders := w.renders ++ [{ src := src, dst := dst, data := data }] }

/-- The filesystem effect of `BaseBuildPlugin.clean`: remove the build
dir, recreate it, remove stale artifacts matching the package mask. -/
def cleanFs (b : Builder) (fs : FS) : FS :=
  removeByMaskF (result_package_mask b) (createDirF b.build_dir (removeTreeF b.build_dir fs))

/-- `BaseBuildPlugin.clean`. -/
def clean (b : Builder) (w : World) : StepResult :=
  ({ w with fs := cleanFs b w.fs }, none)

/-- `BaseBuildPlugin.run_pre_build_hook`: execute the hook iff `which`
resolves it. -/
def run_pre_build_hook (b : Builder) (env : Env) (w : World) : StepResult :=
  if env.which b.pre_build_hook_path then exec_cmd env b.pre_build_hook_path w
  else (w, none)

/-- `BaseBuildPlugin.add_checksums_file`: `utils.create_checksums_file`
writes the manifest of the staged sources. -/
def add_checksums_file (b : Builder) (w : World) : StepResult :=
  ({ w with fs := addFileF b.checksums_path "" w.fs }, none)

/-- The aggregated message of `FuelCannotFindCommandError`. -/
def cannotFindMsg (notFound : List String) : String :=
  "Cannot find commands \"" ++ String.intercalate ", " notFound ++
    "\", install required commands and try again"

/-- `BaseBuildPlugin._check_requirements`: filter the required commands
that `which` cannot resolve; raise one aggregated error iff the filtered
list is non-empty. -/
def check_requirements (b : Builder) (env : Env) (w : World) : StepResult :=
  let notFound := (requires b).filter (fun r => !env.which r)
  if notFound.isEmpty then (w, none)
  else (w, some (Err.cannotFindCommand (cannotFindMsg notFound)))

/-- `BaseBuildPlugin._check_structure`: the external ValidatorManager
validator for the plugin path either passes or raises (opaque). -/
def check_structure (b : Builder) (env : Env) (w : World) : StepResult :=
  if env.validatorOk b.plugin_path then (w, none)
  else (w, some Err.validationError)

/-- `BaseBuildPlugin.check`: requirements first, then structure. -/
def check (b : Builder) (env : Env) (w : World) : StepResult :=
  andThen (check_requirements b env w) (check_structure b env)

/-- `releases_paths.setdefault(os, []); releases_paths[os].append(p)`. -/
def addPath (m : List (String × List String)) (k v : String) :
    List (String × List String) :=
  match m with
  | [] => [(k, [v])]
  | (k', vs) :: rest =>
    if k' == k then (k', vs ++ [v]) :: rest else (k', vs) :: addPath rest k v

/-- Dictionary lookup with default `[]` (`releases_paths.get(os, [])`). -/
def lookupD (m : List (String × List String)) (k : String) : List String :=
  match m with
  | [] => []
  | (k', vs) :: rest => if k' == k then vs else lookupD rest k

/-- The grouping loop of `BaseBuildPlugin.build_repos`: an insertion-order
dictionary from OS name to the staged repository paths. -/
def releasesPaths (bsd : String) (releases : List Release) :
    List (String × List String) :=
  releases.foldl (fun m r => addPath m r.os (join_path bsd r.repository_path)) []

/-- The loop body of the base-class `build_ubuntu_repos` (used by V1):
scan packages and gzip the listing in each repository path. -/
def ubuntuLoopV1 (env : Env) : List String → World → StepResult
  | [], w => (w, none)
  | p :: rest, w =>
    match exec_piped_cmds env ["dpkg-scanpackages .", "gzip -c9 > Packages.gz"] p w with
    | (w', none) => ubuntuLoopV1 env rest w'
    | (w', some e) => (w', some e)

/-- The loop body of `BuildPluginV2.build_ubuntu_repos` (used by V2/V3):
scan and gzip, then render the Release template with the plugin name and
the split major version. -/
def ubuntuLoopV2 (b : Builder) (f : V2Fields) (env : Env) :
    List String → World → StepResult
  | [], w => (w, none)
  | p :: rest, w =>
    match exec_piped_cmds env ["dpkg-scanpackages .", "gzip -c9 > Packages.gz"] p w with
    | (w', some e) => (w', some e)
    | (w', none) =>
      match b.meta.name with
      | none => (w', some (Err.keyError "name"))
      | some nm =>
        let w'' := render_to_file f.release_tmpl_src (join_path p "Release")
          [("plugin_name", TVal.s nm), ("major_version", TVal.s f.plugin_version)] w'
        ubuntuLoopV2 b f env rest w''

/-- `build_ubuntu_repos`, dispatched on the builder's class. -/
def build_ubuntu_repos (b : Builder) (env : Env) (paths : List String)
    (w : World) : StepResult :=
  match b.ext with
  | .v1 => ubuntuLoopV1 env paths w
  | .v2 f => ubuntuLoopV2 b f env paths w
  | .v3 f => ubuntuLoopV2 b f env paths w

/-- The loop of `BaseBuildPlugin.build_centos_repos`: create a `Packages`
subdirectory, move the rpm files into it, run createrepo. -/
def build_centos_repos (env : Env) : List String → World → StepResult
  | [], w => (w, none)
  | p :: rest, w =>
    let repoPackages := join_path p "Packages"
    let w := { w with fs := createDirF repoPackages w.fs }
    let w := { w with
      fs := moveByMaskF { pre := p ++ "/", suf := ".rpm" } repoPackages w.fs }
    match exec_cmd env ("createrepo -o " ++ p ++ " " ++ p) w with
    | (w', none) => build_centos_repos env rest w'
    | (w', some e) => (w', some e)

/-- `BaseBuildPlugin.build_repos`: create and stage the build-local source
copy, group the releases' repository paths by OS, then build the Debian
and RPM repositories (an OS with no releases contributes `[]`). -/
def build_repos (b : Builder) (env : Env) (w : World) : StepResult :=
  let fs := createDirF b.build_src_dir w.fs
  let fs := stageCopyF b.plugin_path b.build_dir b.build_src_dir fs
  let w := { w with fs := fs }
  match b.meta.releases with
  | none => (w, some (Err.keyError "releases"))
  | some rs =>
    let rp := releasesPaths b.build_src_dir rs
    andThen (build_ubuntu_repos b env (lookupD rp "ubuntu") w)
      (build_centos_repos env (lookupD rp "centos"))

/-- Python `dict.update` for one key: replace an existing entry, else
append. -/
def dictUpdate1 (d : TData) (k : String) (v : TVal) : TData :=
  if d.any (fun p => p.1 == k) then
    d.map (fun p => if p.1 == k then (k, v) else p)
  else d ++ [(k, v)]

/-- Python `dict.update` with several keys. -/
def dictUpdate (d : TData) (kvs : TData) : TData :=
  kvs.foldl (fun d kv => dictUpdate1 d kv.1 kv.2) d

/-- `BuildPluginV2._make_data_for_template`: the spec-template data built
from the V2 fields, the metadata and the current year. -/
def make_data_for_template_v2 (b : Builder) (f : V2Fields) (env : Env) :
    Except Err TData := do
  let _name ← getKey "name" b.meta.name
  let title ← getKey "title" b.meta.title
  let description ← getKey "description" b.meta.description
  pure [("name", TVal.s f.full_name),
        ("version", TVal.s f.full_version),
        ("summary", TVal.s title),
        ("description", TVal.s description),
        ("license", TVal.s (String.intercalate " and " (b.meta.licenses.getD []))),
        ("homepage", TVal.os b.meta.homepage),
        ("vendor", TVal.s (String.intercalate ", " (b.meta.authors.getD []))),
        ("year", TVal.n env.year)]

/-- `BuildPluginV3._make_data_for_template`: the V2 data updated with the
verbatim contents of the three optional lifecycle scripts at the plugin
root, each read via `read_if_exist`. -/
def make_data_for_template_v3 (b : Builder) (f : V2Fields) (env : Env)
    (fs : FS) : Except Err TData := do
  let data ← make_data_for_template_v2 b f env
  let uninst := read_if_exist fs (join_path b.plugin_path "uninstall.sh")
  let preinst := read_if_exist fs (join_path b.plugin_path "pre_install.sh")
  let postinst := read_if_exist fs (join_path b.plugin_path "post_install.sh")
  pure (dictUpdate data
    [("postinstall_hook", TVal.s postinst),
     ("preinstall_hook", TVal.s preinst),
     ("uninstall_hook", TVal.s uninst)])

/-- `BuildPluginV1.make_package`: tar-gzip the staged sources to
`<plugin>/<name>-<version>.fp` with internal root `<name>-<version>`. -/
def make_package_v1 (b : Builder) (w : World) : StepResult :=
  match b.meta.name with
  | none => (w, some (Err.keyError "name"))
  | some nm =>
    match b.meta.version with
    | none => (w, some (Err.keyError "version"))
    | some version =>
      let full_name := nm ++ "-" ++ version
      let tar_name := full_name ++ ".fp"
      let tar_path := join_path b.plugin_path tar_name
      (make_tar_gz b.build_src_dir tar_path full_name w, none)

/-- The formatted `rpmbuild` command of `BuildPluginV2.make_package`. -/
def rpmbuildCmd (f : V2Fields) : String :=
  "rpmbuild -vv --nodeps --define \"_topdir " ++ f.rpm_path ++ "\" -bb " ++ f.spec_dst

/-- `BuildPluginV2.make_package` (V3 inherits it, overriding only the
template-data method `mkData`): create the rpm SOURCES dir, tar-gzip the
staged sources there, render the spec, run rpmbuild, copy the built
noarch rpms back into the plugin root. -/
def make_package_rpm (b : Builder) (f : V2Fields) (env : Env)
    (mkData : FS → Except Err TData) (w : World) : StepResult :=
  let w := { w with fs := createDirF f.rpm_src_path w.fs }
  let w := make_tar_gz b.build_src_dir f.tar_path f.full_name w
  match mkData w.fs with
  | .error e => (w, some e)
  | .ok data =>
    let w := render_to_file f.spec_src f.spec_dst data w
    match exec_cmd env (rpmbuildCmd f) w with
    | (w', some e) => (w', some e)
    | (w', none) =>
      ({ w' with fs := copyByMaskF f.rpm_packages_mask b.plugin_path w'.fs }, none)

/-- `make_package`, dispatched on the builder's class. -/
def make_package (b : Builder) (env : Env) (w : World) : StepResult :=
  match b.ext with
  | .v1 => make_package_v1 b w
  | .v2 f => make_package_rpm b f env (fun _ => make_data_for_template_v2 b f env) w
  | .v3 f => make_package_rpm b f env (make_data_for_template_v3 b f env) w

/-- `BaseBuildPlugin.run`: the fixed pipeline, one statement after the
other, each aborting the rest when it raises. -/
def run (b : Builder) (env : Env) (w : World) : StepResult :=
  andThen (andThen (andThen (andThen (andThen
    (clean b w)
    (run_pre_build_hook b env))
    (check b env))
    (build_repos b env))
    (add_checksums_file b))
    (make_package b env)

/-- Run a list of statements in order, aborting at the first raise. -/
def stepSeq : World → List (World → StepResult) → StepResult
  | w, [] => (w, none)
  | w, f :: fs =>
    match f w with
    | (w', none) => stepSeq w' fs
    | (w', some e) => (w', some e)

/-- The pipeline of `run`, flattened to its seven elementary steps (the
check phase split into its two sub-steps, in their source order). -/
def pipeline7 (b : Builder) (env : Env) : List (World → StepResult) :=
  [clean b, run_pre_build_hook b env, check_requirements b env,
   check_structure b env, build_repos b env, add_checksums_file b,
   make_package b env]

/-- Modelled from the spec: the build entry point that ties
`make_builder` to `run` lives in the CLI layer outside `src/`; spec §4.1
dispatches (constructs the builder) and then executes the pipeline. -/
def buildPlugin (lookup : MetaDict → Except Err Variant) (env : Env)
    (ys : YamlStore) (plugin_path : String) (w : World) : StepResult :=
  match make_builder lookup ys plugin_path with
  | .error e => (w, some e)
  | .ok b => run b env w

/-- Following the claim's words (C5): the tarball V2 allegedly writes —
named `<name>-<version>.fp` with internal root `<name>-<version>` "where
version is the plugin's declared version string" — placed inside the
native-package source staging directory `.build/rpm/SOURCES`. -/
def claimedV2TarGz (pluginPath nm declaredVersion : String) : TarGzEntry :=
  { srcDir := join_path (join_path pluginPath ".build") "src"
    dest := join_path
      (join_path (join_path (join_path pluginPath ".build") "rpm") "SOURCES")
      (nm ++ "-" ++ declaredVersion ++ ".fp")
    rootName := nm ++ "-" ++ declaredVersion }

/-- Concrete metadata used by the witnesses: a well-formed plugin named
`alpha` with declared version `1.2-3`. -/
def metaA : MetaDict :=
  { name := some "alpha", version := some "1.2-3", title := some "Title",
    description := some "Descr", releases := some [] }

/-- The V1 builder `builderInit` constructs at `/p` from `metaA`. -/
def b1 : Builder :=
  { plugin_path := "/p", pre_build_hook_path := "/p/pre_build_hook",
    meta := metaA, build_dir := "/p/.build", build_src_dir := "/p/.build/src",
    checksums_path := "/p/.build/src/checksums.sha1", name := "alpha",
    ext := .v1 }

/-- The V2 extension fields `builderInit` computes at `/p` from `metaA`. -/
def fA : V2Fields :=
  { plugin_version := "1.2", full_version := "3", rpm_path := "/p/.build/rpm",
    rpm_src_path := "/p/.build/rpm/SOURCES", full_name := "alpha-1.2",
    tar_path := "/p/.build/rpm/SOURCES/alpha-1.2.fp",
    spec_src := "/fpb/templates/v2/build/plugin_rpm.spec.mako",
    release_tmpl_src := "/fpb/templates/v2/build/Release.mako",
    spec_dst := "/p/.build/rpm/plugin_rpm.spec",
    rpm_packages_mask := { pre := "/p/.build/rpm/RPMS/noarch/", suf := ".rpm" } }

/-- The V2 builder at `/p` from `metaA`. -/
def b2 : Builder := { b1 with ext := .v2 fA }

/-- The V3 extension fields at `/p` from `metaA` (template paths differ
from V2's). -/
def fA3 : V2Fields :=
  { fA with
    spec_src := "/fpb/templates/v3/build/plugin_rpm.spec.mako",
    release_tmpl_src := "/fpb/templates/v3/build/Release.mako" }

/-- The V3 builder at `/p` from `metaA`. -/
def b3 : Builder := { b1 with ext := .v3 fA3 }

/-- The empty starting filesystem. -/
def fs0 : FS := {}

/-- An environment in which every command resolves and succeeds. -/
def envAll : Env :=
  { which := fun _ => true, cmdOk := fun _ => true,
    validatorOk := fun _ => true, year := 2016 }

/-- An environment in which every command resolves but execution fails. -/
def envHookFail : Env :=
  { which := fun _ => true, cmdOk := fun _ => false,
    validatorOk := fun _ => true, year := 2016 }

/-- An environment in which only `rpm` resolves on PATH. -/
def envOnlyRpm : Env :=
  { which := fun s => s == "rpm", cmdOk := fun _ => true,
    validatorOk := fun _ => true, year := 2016 }

/-- An environment in which nothing resolves on PATH. -/
def envNone : Env :=
  { which := fun _ => false, cmdOk := fun _ => true,
    validatorOk := fun _ => true, year := 2016 }

/-- The empty starting world. -/
def w0 : World := {}

/-- A version-mapping lookup that always selects V2. -/
def lookupV2 : MetaDict → Except Err Variant := fun _ => .ok .v2

theorem toList_append (a b : String) : (a ++ b).toList = a.toList ++ b.toList := rfl

theorem strAppend_assoc (a b c : String) : a ++ b ++ c = a ++ (b ++ c) := by
  rcases a with ⟨a⟩
  rcases b with ⟨b⟩
  rcases c with ⟨c⟩
  exact congrArg String.mk (List.append_assoc a b c)

@[simp]
theorem dropPre?_append (pre rest : List Char) :
    dropPre? pre (pre ++ rest) = some rest := by
  induction pre with
  | nil => rfl
  | cons c cs ih => simp [dropPre?, ih]

theorem dropPre?_isSome_length {pre s : List Char}
    (h : (dropPre? pre s).isSome = true) : pre.length ≤ s.length := by
  induction pre generalizing s with
  | nil => simp
  | cons c cs ih =>
    cases s with
    | nil => simp [dropPre?] at h
    | cons d ds =>
      simp only [dropPre?] at h
      by_cases hc : c = d
      · simp only [hc, if_pos rfl] at h
        have := ih h
        simp only [List.length_cons]
        omega
      · simp [hc] at h

theorem maskMatches_sandwich (p mid s : String) :
    maskMatches { pre := p, suf := s } (p ++ mid ++ s) = true := by
  have h1 : (p ++ mid ++ s).toList = p.toList ++ (mid.toList ++ s.toList) := by
    rw [toList_append, toList_append, List.append_assoc]
  simp only [maskMatches, h1, dropPre?_append, List.reverse_append]
  simp [dropPre?_append]

theorem strStarts_slash_self (d : String) : strStarts (d ++ "/") d = false := by
  unfold strStarts
  cases h : dropPre? (d ++ "/").toList d.toList with
  | none => rfl
  | some r =>
    have hl : (d ++ "/").toList.length ≤ d.toList.length :=
      dropPre?_isSome_length (by rw [h]; rfl)
    rw [toList_append] at hl
    simp at hl

theorem andThen_assoc (r : StepResult) (f g : World → StepResult) :
    andThen (andThen r f) g = andThen r (fun w => andThen (f w) g) := by
  rcases r with ⟨w, e⟩
  cases e <;> rfl

theorem andThen_pureR (r : StepResult) :
    andThen r (fun w => (w, none)) = r := by
  rcases r with ⟨w, e⟩
  cases e <;> rfl

@[simp]
theorem stepSeq_nil (w : World) : stepSeq w [] = (w, none) := rfl

theorem stepSeq_cons (w : World) (f : World → StepResult)
    (fs : List (World → StepResult)) :
    stepSeq w (f :: fs) = andThen (f w) (fun w' => stepSeq w' fs) := by
  cases h : f w with
  | mk w' e => cases e <;> simp [stepSeq, andThen, h]

theorem stepSeq_append_fail (fs1 : List (World → StepResult))
    (gs : List (World → StepResult)) (f : World → StepResult)
    (w w1 w2 : World) (e : Err)
    (h1 : stepSeq w fs1 = (w1, none)) (h2 : f w1 = (w2, some e)) :
    stepSeq w (fs1 ++ f :: gs) = (w2, some e) := by
  induction fs1 generalizing w with
  | nil =>
    simp only [stepSeq] at h1
    injection h1 with hw he
    subst hw
    simp [stepSeq, h2]
  | cons g rest ih =>
    simp only [List.cons_append, stepSeq]
    cases hg : g w with
    | mk w' e' =>
      cases e' with
      | none =>
        simp only [stepSeq, hg] at h1
        exact ih w' h1
      | some e'' =>
        simp only [stepSeq, hg] at h1
        exact absurd (congrArg Prod.snd h1) (by simp)

theorem lookupD_addPath (m : List (String × List String)) (k' v k : String) :
    lookupD (addPath m k' v) k
      = if k' == k then lookupD m k ++ [v] else lookupD m k := by
  induction m with
  | nil =>
    by_cases h : k' = k
    · simp [addPath, lookupD, h]
    · simp [addPath, lookupD, h]
  | cons p rest ih =>
    rcases p with ⟨k'', vs⟩
    by_cases h1 : k'' = k'
    · subst h1
      by_cases h2 : k'' = k
      · simp [addPath, lookupD, h2]
      · simp [addPath, lookupD, h2]
    · by_cases h2 : k'' = k
      · subst h2
        have h3 : k' ≠ k'' := fun h => h1 h.symm
        simp [addPath, lookupD, h1, h3]
      · simp [addPath, lookupD, h1, h2, ih]

theorem lookupD_foldl (bsd : String) (rs : List Release)
    (m : List (String × List String)) (k : String) :
    lookupD
        (rs.foldl (fun m r => addPath m r.os (join_path bsd r.repository_path)) m)
        k
      = lookupD m k
        ++ (rs.filter (fun r => r.os == k)).map
            (fun r => join_path bsd r.repository_path) := by
  induction rs generalizing m with
  | nil => simp
  | cons r rest ih =>
    simp only [List.foldl_cons, List.filter_cons]
    rw [ih, lookupD_addPath]
    by_cases h : r.os = k
    · simp [h]
    · simp [h]

theorem lookupD_releasesPaths (bsd : String) (rs : List Release) (k : String) :
    lookupD (releasesPaths bsd rs) k
      = (rs.filter (fun r => r.os == k)).map
          (fun r => join_path bsd r.repository_path) := by
  unfold releasesPaths
  rw [lookupD_foldl]
  rfl

theorem cleanFs_dirExists (b : Builder) (fs : FS) :
    ((cleanFs b fs).dirs.any (fun x => x == b.build_dir)) = true := by
  unfold cleanFs removeByMaskF createDirF
  split
  next h =>
    have hmem : b.build_dir ∈ (removeTreeF b.build_dir fs).dirs :=
      List.elem_iff.mp h
    simp only [List.any_eq_true]
    exact ⟨b.build_dir, hmem, by simp⟩
  next h =>
    simp only [List.any_eq_true]
    exact ⟨b.build_dir, by simp, by simp⟩

theorem createDirF_files (d : String) (fs : FS) :
    (createDirF d fs).files = fs.files := by
  unfold createDirF
  split <;> rfl

theorem removeByMaskF_dirs (m : Mask) (fs : FS) :
    (removeByMaskF m fs).dirs = fs.dirs := rfl

theorem mem_createDirF_dirs {d x : String} {fs : FS}
    (h : x ∈ (createDirF d fs).dirs) : x ∈ fs.dirs ∨ x = d := by
  unfold createDirF at h
  split at h
  · exact .inl h
  · simp only [List.mem_append, List.mem_singleton] at h
    exact h

theorem mem_removeTreeF_files {d : String} {f : String × String} {fs : FS}
    (h : f ∈ (removeTreeF d fs).files) : strStarts (d ++ "/") f.1 = false := by
  unfold removeTreeF at h
  have h2 := (List.mem_filter.mp h).2
  simp only [Bool.not_eq_true', Bool.or_eq_false_iff] at h2
  exact h2.2

theorem mem_removeTreeF_dirs {d x : String} {fs : FS}
    (h : x ∈ (removeTreeF d fs).dirs) : strStarts (d ++ "/") x = false := by
  unfold removeTreeF at h
  have h2 := (List.mem_filter.mp h).2
  simp only [Bool.not_eq_true', Bool.or_eq_false_iff] at h2
  exact h2.2

theorem cleanFs_dirEmpty (b : Builder) (fs : FS) :
    ((cleanFs b fs).files.all (fun f => !strStarts (b.build_dir ++ "/") f.1)
      && (cleanFs b fs).dirs.all (fun x => !strStarts (b.build_dir ++ "/") x))
      = true := by
  simp only [Bool.and_eq_true, List.all_eq_true]
  constructor
  · intro f hf
    have hf1 : f ∈ (createDirF b.build_dir (removeTreeF b.build_dir fs)).files :=
      (List.mem_filter.mp hf).1
    rw [createDirF_files] at hf1
    simp [mem_removeTreeF_files hf1]
  · intro x hx
    have hx1 : x ∈ (createDirF b.build_dir (removeTreeF b.build_dir fs)).dirs := hx
    rcases mem_createDirF_dirs hx1 with h | h
    · simp [mem_removeTreeF_dirs h]
    · subst h
      simp [strStarts_slash_self]

theorem cleanFs_noMask (b : Builder) (fs : FS) :
    ((cleanFs b fs).files.all
      (fun f => !maskMatches (result_package_mask b) f.1)) = true := by
  simp only [List.all_eq_true]
  intro f hf
  have := (List.mem_filter.mp hf).2
  simpa using this

theorem breakAtLastDash_eq_none {cs : List Char} (h : '-' ∉ cs) :
    version_split_name_rpm.breakAtLastDash cs = none := by
  induction cs with
  | nil => rfl
  | cons c rest ih =>
    simp only [List.mem_cons, not_or] at h
    unfold version_split_name_rpm.breakAtLastDash
    rw [ih h.2, if_neg (fun hc => h.1 hc.symm)]

/-- C3: the version-splitting function used by V2/V3 is deterministic and
total on version strings (it is a Lean function), splits `"1.2-3"` into
`("1.2", "3")` and `"1.0"` into `("1.0", "1")`, and more generally maps
any version string with no dash (no explicit release suffix) to the pair
of itself and the default release `"1"`. -/
theorem c3_version_split :
    version_split_name_rpm "1.2-3" = ("1.2", "3")
  ∧ version_split_name_rpm "1.0" = ("1.0", "1")
  ∧ ∀ v : String, '-' ∉ v.toList → version_split_name_rpm v = (v, "1") := by
  refine ⟨by decide, by decide, ?_⟩
  intro v hv
  unfold version_split_name_rpm
  rw [breakAtLastDash_eq_none hv]

/-- Witness for C3: the general no-release-suffix clause applied at the
concrete version string `"2.0"`. -/
theorem c3_version_split_witness :
    version_split_name_rpm "2.0" = ("2.0", "1") :=
  c3_version_split.2.2 "2.0" (by decide)

/-- C2: `_check_requirements` computes exactly the required commands that
do not resolve on PATH (the filtered list), raises nothing when that list
is empty, and otherwise raises the single aggregated
`FuelCannotFindCommandError` whose message is built from precisely that
list of missing commands. -/
theorem c2_check_requirements (b : Builder) (env : Env) (w : World) :
    (∀ r, r ∈ (requires b).filter (fun r => !env.which r)
        ↔ (r ∈ requires b ∧ env.which r = false))
  ∧ ((requires b).filter (fun r => !env.which r) = []
      → check_requirements b env w = (w, none))
  ∧ ((requires b).filter (fun r => !env.which r) ≠ []
      → check_requirements b env w
          = (w, some (Err.cannotFindCommand
              (cannotFindMsg ((requires b).filter (fun r => !env.which r)))))) := by
  refine ⟨?_, ?_, ?_⟩
  · intro r
    simp [List.mem_filter]
  · intro h
    unfold check_requirements
    simp [h]
  · intro h
    unfold check_requirements
    rw [if_neg (by simpa [List.isEmpty_iff] using h)]

/-- Witness for C2: in an environment where only `rpm` resolves, the V1
builder's requirement check raises one error naming the two missing
commands. -/
theorem c2_check_requirements_witness :
    check_requirements b1 envOnlyRpm w0
      = (w0, some (Err.cannotFindCommand
          "Cannot find commands \"createrepo, dpkg-scanpackages\", install required commands and try again")) := by
  have h := (c2_check_requirements b1 envOnlyRpm w0).2.2 (by decide)
  exact h.trans (by decide)

/-- C7: `build_repos` groups the releases' repository paths by OS family
(insertion order, staged under the build source dir); an OS family with
no release entries contributes the empty list, on which both repository
builders run no external command and raise no error; and a metadata whose
releases match neither OS leaves `build_repos` as pure staging, with
success. -/
theorem c7_group_by_os (b : Builder) (env : Env) (w : World)
    (bsd : String) (rs : List Release) :
    (∀ k, lookupD (releasesPaths bsd rs) k
        = (rs.filter (fun r => r.os == k)).map
            (fun r => join_path bsd r.repository_path))
  ∧ build_ubuntu_repos b env [] w = (w, none)
  ∧ build_centos_repos env [] w = (w, none)
  ∧ (b.meta.releases = some rs
      → rs.filter (fun r => r.os == "ubuntu") = []
      → rs.filter (fun r => r.os == "centos") = []
      → build_repos b env w
          = ({ w with fs := (stageCopyF b.plugin_path b.build_dir b.build_src_dir
                (createDirF b.build_src_dir w.fs)) }, none)) := by
  have hub : ∀ w' : World, build_ubuntu_repos b env [] w' = (w', none) := by
    intro w'
    cases h : b.ext <;> simp [build_ubuntu_repos, h, ubuntuLoopV1, ubuntuLoopV2]
  refine ⟨lookupD_releasesPaths bsd rs, hub w, rfl, ?_⟩
  intro hrel hu hc
  have hu0 : lookupD (releasesPaths b.build_src_dir rs) "ubuntu" = [] := by
    rw [lookupD_releasesPaths, hu]; rfl
  have hc0 : lookupD (releasesPaths b.build_src_dir rs) "centos" = [] := by
    rw [lookupD_releasesPaths, hc]; rfl
  simp only [build_repos, hrel, hu0, hc0]
  rw [hub]
  simp [andThen, build_centos_repos]

/-- Witness for C7: a plugin with an empty releases list stages sources
and succeeds without running any repository command. -/
theorem c7_group_by_os_witness :
    build_repos b1 envAll w0
      = ({ w0 with fs := (stageCopyF b1.plugin_path b1.build_dir b1.build_src_dir
            (createDirF b1.build_src_dir w0.fs)) }, none) :=
  (c7_group_by_os b1 envAll w0 b1.build_src_dir []).2.2.2
    (by decide) (by decide) (by decide)

/-- C8: for every variant and prior filesystem state, `clean` returns
without error, and afterwards the build workspace directory exists, is
empty (no file or directory strictly below it), and no file matching the
variant's `result_package_mask` remains. -/
theorem c8_clean_postconditions (b : Builder) (w : World) :
    ∃ w', clean b w = (w', none)
      ∧ (w'.fs.dirs.any (fun x => x == b.build_dir)) = true
      ∧ (w'.fs.files.all (fun f => !strStarts (b.build_dir ++ "/") f.1)
          && w'.fs.dirs.all (fun x => !strStarts (b.build_dir ++ "/") x)) = true
      ∧ (w'.fs.files.all (fun f => !maskMatches (result_package_mask b) f.1)) = true :=
  ⟨{ w with fs := cleanFs b w.fs }, rfl, cleanFs_dirExists b w.fs,
    cleanFs_dirEmpty b w.fs, cleanFs_noMask b w.fs⟩

/-- C1: `run` is exactly the sequential execution of the seven pipeline
steps in their fixed order — clean, pre-build hook, requirement check,
structural validation (the check phase in that order), repository build,
checksum manifest, package assembly — and whenever the steps before some
step `f` succeed and `f` raises, `run`'s result is `f`'s raise: no later
step executes or contributes anything. -/
theorem c1_run_order_and_abort (b : Builder) (env : Env) (w : World) :
    run b env w = stepSeq w (pipeline7 b env)
  ∧ ∀ (pre post : List (World → StepResult)) (f : World → StepResult)
      (w1 w2 : World) (e : Err),
      pipeline7 b env = pre ++ f :: post →
      stepSeq w pre = (w1, none) → f w1 = (w2, some e) →
      run b env w = (w2, some e) := by
  have hflat : run b env w = stepSeq w (pipeline7 b env) := by
    simp only [pipeline7, stepSeq_cons, stepSeq_nil, andThen_pureR, run,
      check, andThen_assoc]
  refine ⟨hflat, fun pre post f w1 w2 e hp h1 h2 => ?_⟩
  rw [hflat, hp]
  exact stepSeq_append_fail pre post f w w1 w2 e h1 h2

/-- Witness for C1: with a resolvable but failing pre-build hook, `run`
stops right after the hook step, returning the hook's failure and the
world as the first two steps left it. -/
theorem c1_run_order_and_abort_witness :
    run b1 envHookFail w0
      = ({ fs := { files := [], dirs := ["/p/.build"] }, trace := [ExtCmd.exec "/p/pre_build_hook"],
           targz := [], renders := [] }, some (Err.commandFailed "/p/pre_build_hook")) :=
  (c1_run_order_and_abort b1 envHookFail w0).2
    [clean b1]
    [check_requirements b1 envHookFail, check_structure b1 envHookFail,
      build_repos b1 envHookFail, add_checksums_file b1,
      make_package b1 envHookFail]
    (run_pre_build_hook b1 envHookFail)
    { fs := { files := [], dirs := ["/p/.build"] }, trace := [], targz := [], renders := [] }
    { fs := { files := [], dirs := ["/p/.build"] }, trace := [ExtCmd.exec "/p/pre_build_hook"],
      targz := [], renders := [] }
    (Err.commandFailed "/p/pre_build_hook")
    rfl (by decide) (by decide)

theorem run_abort_at_check (b : Builder) (env : Env) (w w2 : World) (e : Err)
    (h1 : run_pre_build_hook b env ({ w with fs := cleanFs b w.fs }) = (w2, none))
    (h2 : check b env w2 = (w2, some e)) :
    run b env w = (w2, some e) := by
  have key : andThen (andThen (andThen (check b env w2) (build_repos b env))
      (add_checksums_file b)) (make_package b env) = (w2, some e) := by
    rw [h2]
    rfl
  calc run b env w
      = andThen (andThen (andThen (check b env w2) (build_repos b env))
          (add_checksums_file b)) (make_package b env) := by
        simp only [run, clean, andThen]
        rw [h1]
    _ = (w2, some e) := key

theorem hook_preserves (b : Builder) (env : Env) (w : World)
    (hhook : env.which b.pre_build_hook_path = false
      ∨ env.cmdOk (ExtCmd.exec b.pre_build_hook_path) = true) :
    ∃ w2, run_pre_build_hook b env w = (w2, none) ∧ w2.fs = w.fs := by
  unfold run_pre_build_hook exec_cmd
  cases hwh : env.which b.pre_build_hook_path with
  | false => exact ⟨w, by simp, rfl⟩
  | true =>
    rcases hhook with h | h
    · rw [hwh] at h
      cases h
    · refine ⟨{ w with trace := w.trace ++ [ExtCmd.exec b.pre_build_hook_path] }, ?_, rfl⟩
      simp [h]

/-- C9: `run` is not atomic on error — whenever the pre-build hook does
not itself fail but the check phase raises (missing requirements or
structural-validation failure), `run` surfaces that error with the
filesystem exactly as `clean` left it: the workspace directory already
recreated empty and every artifact matching `result_package_mask`
already deleted. -/
theorem c9_clean_already_ran_on_check_failure (b : Builder) (env : Env)
    (w : World)
    (hhook : env.which b.pre_build_hook_path = false
      ∨ env.cmdOk (ExtCmd.exec b.pre_build_hook_path) = true)
    (hfail : (requires b).filter (fun r => !env.which r) ≠ []
      ∨ env.validatorOk b.plugin_path = false) :
    ∃ w' e, run b env w = (w', some e)
      ∧ w'.fs = cleanFs b w.fs
      ∧ (w'.fs.dirs.any (fun x => x == b.build_dir)) = true
      ∧ (w'.fs.files.all (fun f => !strStarts (b.build_dir ++ "/") f.1)
          && w'.fs.dirs.all (fun x => !strStarts (b.build_dir ++ "/") x)) = true
      ∧ (w'.fs.files.all (fun f => !maskMatches (result_package_mask b) f.1)) = true := by
  obtain ⟨w2, hw2, hfs2⟩ := hook_preserves b env ({ w with fs := cleanFs b w.fs }) hhook
  have hfs2' : w2.fs = cleanFs b w.fs := hfs2
  obtain ⟨e, hcheck⟩ : ∃ e, check b env w2 = (w2, some e) := by
    cases hnf : ((requires b).filter (fun r => !env.which r)).isEmpty with
    | false =>
      refine ⟨Err.cannotFindCommand
        (cannotFindMsg ((requires b).filter (fun r => !env.which r))), ?_⟩
      simp [check, check_requirements, hnf, andThen]
    | true =>
      rcases hfail with h | h
      · exact absurd (List.isEmpty_iff.mp hnf) h
      · refine ⟨Err.validationError, ?_⟩
        simp [check, check_requirements, hnf, andThen, check_structure, h]
  refine ⟨w2, e, run_abort_at_check b env w w2 e hw2 hcheck, hfs2', ?_, ?_, ?_⟩
  · rw [hfs2']
    exact cleanFs_dirExists b w.fs
  · rw [hfs2']
    exact cleanFs_dirEmpty b w.fs
  · rw [hfs2']
    exact cleanFs_noMask b w.fs

/-- Witness for C9: with no command resolvable on PATH (hook absent,
requirements missing), `run` fails in the check phase with the workspace
already recreated empty. -/
theorem c9_clean_already_ran_witness :
    ∃ w' e, run b1 envNone w0 = (w', some e)
      ∧ w'.fs = cleanFs b1 w0.fs
      ∧ (w'.fs.dirs.any (fun x => x == b1.build_dir)) = true
      ∧ (w'.fs.files.all (fun f => !strStarts (b1.build_dir ++ "/") f.1)
          && w'.fs.dirs.all (fun x => !strStarts (b1.build_dir ++ "/") x)) = true
      ∧ (w'.fs.files.all (fun f => !maskMatches (result_package_mask b1) f.1)) = true :=
  c9_clean_already_ran_on_check_failure b1 envNone w0
    (Or.inl (by decide)) (Or.inl (by decide))

theorem join_path_assoc (p x y : String) :
    join_path p (x ++ y) = join_path p x ++ y := by
  apply String.toList_inj.mp
  simp only [join_path, toList_append, List.append_assoc]

theorem builderInit_v1_ok {p : String} {meta : MetaDict} {b : Builder}
    {nm : String} (hn : meta.name = some nm)
    (hinit : builderInit .v1 p meta = .ok b) :
    b = { plugin_path := p
          pre_build_hook_path := join_path p "pre_build_hook"
          meta := meta
          build_dir := join_path p ".build"
          build_src_dir := join_path (join_path p ".build") "src"
          checksums_path := join_path (join_path (join_path p ".build") "src") "checksums.sha1"
          name := nm
          ext := .v1 } := by
  unfold builderInit at hinit
  rw [hn] at hinit
  simp only [getKey, bind, Except.bind, pure, Except.pure] at hinit
  exact (Except.ok.inj hinit).symm

/-- C4: for every plugin whose V1 builder was constructed from metadata
with fields `name` and `version`, `make_package` succeeds and records
exactly one gzip-compressed tarball, written at
`<plugin-root>/<name>-<version>.fp` with internal root
`<name>-<version>`, and that filename matches V1's
`result_package_mask` `<plugin-root>/<name>-*.fp`. -/
theorem c4_v1_package_matches_mask (p : String) (meta : MetaDict)
    (b : Builder) (env : Env) (w : World) (nm ver : String)
    (hinit : builderInit .v1 p meta = .ok b)
    (hn : meta.name = some nm) (hv : meta.version = some ver) :
    ∃ w', make_package b env w = (w', none)
      ∧ w'.targz = w.targz
          ++ [{ srcDir := b.build_src_dir,
                dest := join_path p (nm ++ "-" ++ ver ++ ".fp"),
                rootName := nm ++ "-" ++ ver }]
      ∧ maskMatches (result_package_mask b)
          (join_path p (nm ++ "-" ++ ver ++ ".fp")) = true := by
  have hb := builderInit_v1_ok hn hinit
  subst hb
  simp only [make_package, make_package_v1, hn, hv, make_tar_gz,
    result_package_mask]
  refine ⟨_, rfl, by simp, ?_⟩
  rw [show join_path p (nm ++ "-" ++ ver ++ ".fp")
      = join_path p (nm ++ "-") ++ ver ++ ".fp" by
    rw [join_path_assoc, join_path_assoc]]
  exact maskMatches_sandwich (join_path p (nm ++ "-")) ver ".fp"

/-- Witness for C4: the concrete V1 builder at `/p` writes
`/p/alpha-1.2-3.fp` and the name matches `/p/alpha-*.fp`. -/
theorem c4_v1_package_matches_mask_witness :
    ∃ w', make_package b1 envAll w0 = (w', none)
      ∧ w'.targz = w0.targz
          ++ [{ srcDir := b1.build_src_dir,
                dest := join_path "/p" ("alpha" ++ "-" ++ "1.2-3" ++ ".fp"),
                rootName := "alpha" ++ "-" ++ "1.2-3" }]
      ∧ maskMatches (result_package_mask b1)
          (join_path "/p" ("alpha" ++ "-" ++ "1.2-3" ++ ".fp")) = true :=
  c4_v1_package_matches_mask "/p" metaA b1 envAll w0 "alpha" "1.2-3"
    (by decide) rfl rfl

theorem builderInit_v23_ok {v : Variant} {p : String} {meta : MetaDict}
    {b : Builder} {nm ver : String} (hv23 : v = .v2 ∨ v = .v3)
    (hn : meta.name = some nm) (hver : meta.version = some ver)
    (hinit : builderInit v p meta = .ok b) :
    ∃ f : V2Fields,
      (b.ext = .v2 f ∨ b.ext = .v3 f)
      ∧ b.plugin_path = p
      ∧ b.build_src_dir = join_path (join_path p ".build") "src"
      ∧ f.rpm_src_path = join_path (join_path (join_path p ".build") "rpm") "SOURCES"
      ∧ f.full_name = nm ++ "-" ++ (version_split_name_rpm ver).1
      ∧ f.tar_path = join_path f.rpm_src_path
          (nm ++ "-" ++ (version_split_name_rpm ver).1 ++ ".fp") := by
  rcases hsplit : version_split_name_rpm ver with ⟨pv, fv⟩
  rcases hv23 with rfl | rfl
  · unfold builderInit at hinit
    rw [hn, hver] at hinit
    simp only [getKey, bind, Except.bind, pure, Except.pure, hsplit] at hinit
    obtain rfl := Except.ok.inj hinit
    exact ⟨_, Or.inl rfl, rfl, rfl, rfl, by simp [hsplit], by simp [hsplit]⟩
  · unfold builderInit at hinit
    rw [hn, hver] at hinit
    simp only [getKey, bind, Except.bind, pure, Except.pure, hsplit] at hinit
    obtain rfl := Except.ok.inj hinit
    exact ⟨_, Or.inr rfl, rfl, rfl, rfl, by simp [hsplit], by simp [hsplit]⟩

theorem make_package_rpm_targz (b : Builder) (f : V2Fields) (env : Env)
    (mkData : FS → Except Err TData) (w : World) :
    ((make_package_rpm b f env mkData w).1).targz
      = w.targz ++ [{ srcDir := b.build_src_dir, dest := f.tar_path,
                      rootName := f.full_name }] := by
  simp only [make_package_rpm]
  cases hd : mkData ((make_tar_gz b.build_src_dir f.tar_path f.full_name
      { w with fs := createDirF f.rpm_src_path w.fs }).fs) with
  | error e => simp [make_tar_gz]
  | ok data =>
    simp only []
    cases hcmd : env.cmdOk (ExtCmd.exec (rpmbuildCmd f)) with
    | false => simp [exec_cmd, hcmd, render_to_file, make_tar_gz]
    | true => simp [exec_cmd, hcmd, render_to_file, make_tar_gz]

/-- C5 counterexample: for the plugin `alpha` with declared version
`1.2-3`, the V2 builder's package assembly writes the tarball
`alpha-1.2.fp` (named with the split package-version component), not the
`alpha-1.2-3.fp` named with the declared version string that the claim
asserts. -/
theorem c5_counterexample :
    builderInit .v2 "/p" metaA = .ok b2
  ∧ ((make_package b2 envAll w0).1).targz
      = [{ srcDir := "/p/.build/src",
           dest := "/p/.build/rpm/SOURCES/alpha-1.2.fp",
           rootName := "alpha-1.2" }]
  ∧ ({ srcDir := "/p/.build/src",
       dest := "/p/.build/rpm/SOURCES/alpha-1.2.fp",
       rootName := "alpha-1.2" } : TarGzEntry)
      ≠ claimedV2TarGz "/p" "alpha" "1.2-3" :=
  ⟨by decide, by decide, by decide⟩

/-- C5 (amended): for every V2/V3 builder constructed from metadata with
`name` and `version`, `make_package` wraps the staged sources into the
same kind of tarball as V1 — gzip tarball of the staged source dir,
named `<name>-<v>.fp` with internal root `<name>-<v>` — placed inside
the native-package source staging directory `.build/rpm/SOURCES`, where
`<v>` is the package-version component of the split declared version
(equal to the declared version exactly when there is no release
suffix). -/
theorem c5_v2_tar_like_v1_in_sources (v : Variant) (p : String)
    (meta : MetaDict) (b : Builder) (env : Env) (w : World) (nm ver : String)
    (hv23 : v = .v2 ∨ v = .v3)
    (hinit : builderInit v p meta = .ok b)
    (hn : meta.name = some nm) (hver : meta.version = some ver) :
    ∃ f : V2Fields, (b.ext = .v2 f ∨ b.ext = .v3 f)
      ∧ f.rpm_src_path = join_path (join_path (join_path p ".build") "rpm") "SOURCES"
      ∧ ((make_package b env w).1).targz
          = w.targz
            ++ [{ srcDir := join_path (join_path p ".build") "src",
                  dest := join_path f.rpm_src_path
                    (nm ++ "-" ++ (version_split_name_rpm ver).1 ++ ".fp"),
                  rootName := nm ++ "-" ++ (version_split_name_rpm ver).1 }] := by
  obtain ⟨f, hext, hpp, hbsd, hsrc, hfn, htar⟩ :=
    builderInit_v23_ok hv23 hn hver hinit
  refine ⟨f, hext, hsrc, ?_⟩
  rcases hext with hext | hext <;>
  · simp only [make_package, hext]
    rw [make_package_rpm_targz]
    rw [hbsd, hfn, htar]

/-- Witness for C5 (amended): instantiated at the concrete V2 builder of
plugin `alpha`, version `1.2-3`. -/
theorem c5_v2_tar_like_v1_in_sources_witness :
    ∃ f : V2Fields, (b2.ext = .v2 f ∨ b2.ext = .v3 f)
      ∧ f.rpm_src_path
          = join_path (join_path (join_path "/p" ".build") "rpm") "SOURCES"
      ∧ ((make_package b2 envAll w0).1).targz
          = w0.targz
            ++ [{ srcDir := join_path (join_path "/p" ".build") "src",
                  dest := join_path f.rpm_src_path
                    ("alpha" ++ "-" ++ (version_split_name_rpm "1.2-3").1 ++ ".fp"),
                  rootName := "alpha" ++ "-" ++ (version_split_name_rpm "1.2-3").1 }] :=
  c5_v2_tar_like_v1_in_sources .v2 "/p" metaA b2 envAll w0 "alpha" "1.2-3"
    (Or.inl rfl) (by decide) rfl rfl

/-- C6: the V3 spec-template data is exactly the V2 data plus three
entries — `postinstall_hook`, `preinstall_hook`, `uninstall_hook` —
holding the verbatim contents of `post_install.sh`, `pre_install.sh` and
`uninstall.sh` read from the plugin root via `read_if_exist`; for any
filesystem it succeeds whenever the V2 data does, and a missing script
contributes the empty string rather than an error. -/
theorem c6_v3_template_hooks (b : Builder) (f : V2Fields) (env : Env)
    (fs : FS) (d : TData)
    (hd : make_data_for_template_v2 b f env = .ok d) :
    make_data_for_template_v3 b f env fs
      = .ok (d ++ [("postinstall_hook",
            TVal.s (read_if_exist fs (join_path b.plugin_path "post_install.sh"))),
          ("preinstall_hook",
            TVal.s (read_if_exist fs (join_path b.plugin_path "pre_install.sh"))),
          ("uninstall_hook",
            TVal.s (read_if_exist fs (join_path b.plugin_path "uninstall.sh")))])
  ∧ (∀ sp, fs.files.find? (fun e => e.1 == sp) = none
      → read_if_exist fs sp = "") := by
  constructor
  · have hd0 := hd
    unfold make_data_for_template_v2 at hd
    cases hnm : b.meta.name with
    | none =>
      rw [hnm] at hd
      simp [getKey, bind, Except.bind] at hd
    | some nm =>
      cases hti : b.meta.title with
      | none =>
        rw [hnm, hti] at hd
        simp [getKey, bind, Except.bind] at hd
      | some ti =>
        cases hde : b.meta.description with
        | none =>
          rw [hnm, hti, hde] at hd
          simp [getKey, bind, Except.bind] at hd
        | some de =>
          rw [hnm, hti, hde] at hd
          simp only [getKey, bind, Except.bind, pure, Except.pure] at hd
          obtain rfl := Except.ok.inj hd
          unfold make_data_for_template_v3
          simp only [bind, Except.bind, hd0, pure, Except.pure]
          rfl
  · intro sp h
    unfold read_if_exist
    rw [h]

/-- Witness for C6: the concrete V3 builder with no scripts present gets
a successful template-data dictionary whose three hook entries are all
the empty string. -/
theorem c6_v3_template_hooks_witness :
    make_data_for_template_v3 b3 fA3 envAll fs0
      = .ok [("name", TVal.s "alpha-1.2"), ("version", TVal.s "3"),
             ("summary", TVal.s "Title"), ("description", TVal.s "Descr"),
             ("license", TVal.s ""), ("homepage", TVal.os none),
             ("vendor", TVal.s ""), ("year", TVal.n 2016),
             ("postinstall_hook", TVal.s ""), ("preinstall_hook", TVal.s ""),
             ("uninstall_hook", TVal.s "")] := by
  have h := (c6_v3_template_hooks b3 fA3 envAll fs0
    [("name", TVal.s "alpha-1.2"), ("version", TVal.s "3"),
     ("summary", TVal.s "Title"), ("description", TVal.s "Descr"),
     ("license", TVal.s ""), ("homepage", TVal.os none),
     ("vendor", TVal.s ""), ("year", TVal.n 2016)] (by decide)).1
  exact h.trans (by decide)

/-- C10: the metadata is read and parsed at construction, before any
pipeline step: a missing or unparsable `metadata.yaml` propagates its
error, a parsed metadata lacking `name`, or — when the version lookup
selects V2/V3 — lacking `version`, fails construction; in every such
case `buildPlugin` returns the starting world untouched (clean never
ran), and on success the builder's stored metadata is exactly the parse
result (the pipeline itself takes no further look at the YAML store). -/
theorem c10_metadata_parsed_at_construction
    (lookup : MetaDict → Except Err Variant) (env : Env) (ys : YamlStore)
    (p : String) (w : World) :
    (∀ e0, parse_yaml ys (join_path p "metadata.yaml") = .error e0
      → buildPlugin lookup env ys p w = (w, some e0))
  ∧ (∀ m, parse_yaml ys (join_path p "metadata.yaml") = .ok m
      → m.name = none
      → ∃ e, buildPlugin lookup env ys p w = (w, some e))
  ∧ (∀ m v, parse_yaml ys (join_path p "metadata.yaml") = .ok m
      → lookup m = .ok v → (v = .v2 ∨ v = .v3) → m.version = none
      → ∃ e, buildPlugin lookup env ys p w = (w, some e))
  ∧ (∀ m b, parse_yaml ys (join_path p "metadata.yaml") = .ok m
      → make_builder lookup ys p = .ok b → b.meta = m) := by
  refine ⟨?_, ?_, ?_, ?_⟩
  · intro e0 hp
    unfold buildPlugin make_builder
    rw [hp]
    rfl
  · intro m hp hname
    unfold buildPlugin make_builder
    rw [hp]
    simp only [bind, Except.bind]
    cases hl : lookup m with
    | error e => exact ⟨e, rfl⟩
    | ok v =>
      refine ⟨Err.keyError "name", ?_⟩
      unfold builderInit
      rw [hname]
      cases v <;> rfl
  · intro m v hp hl hv23 hver
    unfold buildPlugin make_builder
    rw [hp]
    simp only [bind, Except.bind]
    rw [hl]
    unfold builderInit
    cases hname : m.name with
    | none =>
      refine ⟨Err.keyError "name", ?_⟩
      rcases hv23 with rfl | rfl <;> rfl
    | some nm =>
      refine ⟨Err.keyError "version", ?_⟩
      rcases hv23 with rfl | rfl <;>
        simp only [getKey, bind, Except.bind, hver]
  · intro m b hp hmk
    unfold make_builder at hmk
    rw [hp] at hmk
    simp only [bind, Except.bind] at hmk
    cases hl : lookup m with
    | error e =>
      rw [hl] at hmk
      cases hmk
    | ok v =>
      rw [hl] at hmk
      unfold builderInit at hmk
      cases hname : m.name with
      | none =>
        rw [hname] at hmk
        cases v <;> simp [getKey, bind, Except.bind] at hmk
      | some nm =>
        rw [hname] at hmk
        cases v with
        | v1 =>
          simp only [getKey, bind, Except.bind, pure, Except.pure] at hmk
          rw [← Except.ok.inj hmk]
        | v2 =>
          cases hver : m.version with
          | none => simp [getKey, bind, Except.bind, hver] at hmk
          | some ver =>
            rcases hsplit : version_split_name_rpm ver with ⟨pv, fv⟩
            simp only [getKey, bind, Except.bind, pure, Except.pure, hver,
              hsplit] at hmk
            rw [← Except.ok.inj hmk]
        | v3 =>
          cases hver : m.version with
          | none => simp [getKey, bind, Except.bind, hver] at hmk
          | some ver =>
            rcases hsplit : version_split_name_rpm ver with ⟨pv, fv⟩
            simp only [getKey, bind, Except.bind, pure, Except.pure, hver,
              hsplit] at hmk
            rw [← Except.ok.inj hmk]

/-- Witness for C10: with an empty YAML store the metadata is missing and
the build fails with the starting world untouched. -/
theorem c10_metadata_parsed_at_construction_witness :
    buildPlugin lookupV2 envAll [] "/p" w0 = (w0, some Err.metadataMissing) :=
  (c10_metadata_parsed_at_construction lookupV2 envAll [] "/p" w0).1
    Err.metadataMissing (by decide)

end Fpb
